import Mathlib

/-!
Verification of the topic-discovery and document-clustering core of the
bulletin-board analysis pipeline.  The Python sources embedded here are
`src/topics/topic_discovery.py` (class `TopicDiscovery`) and
`src/cluster/document_clustering.py` (class `DocumentClustering`).
External collaborators (gensim LDA trials, sklearn transform/fit results,
the sentence-embedding provider, silhouette scoring) are modelled as
oracle functions supplied as parameters; the repository's own control
flow, sweep ranges, arg-max selections, error paths and configuration
mutations are translated directly.
-/

namespace BulletinBoard

/-- Model of `numpy.argmax` on a list: index of the first occurrence of the
maximum element.  Returns 0 on `[]` (numpy raises there; callers guard). -/
def idxOfMax {α : Type} [LinearOrder α] : List α → Nat
  | [] => 0
  | [_] => 0
  | a :: b :: l =>
    let j := idxOfMax (b :: l)
    if a < (b :: l).getD j a then j + 1 else 0

/-! ### Python `range` and sweep ranges -/
/-- Python `range(a, b)` as a list: `[a, a+1, ..., b-1]`. -/
def pyRange (a b : Nat) : List Nat := List.range' a (b - a)

/-! ### Topic-count selection (`TopicDiscovery.find_optimal_topics`) -/
/-- The `large_scale` sub-configuration of `topic_discovery`
(`enabled`, `max_topics_search`, `sample_size`). -/
structure LargeScale where
  enabled : Bool
  maxTopicsSearch : Nat
  sampleSize : Nat
  deriving DecidableEq, Repr

/-- Effective search cap: `find_optimal_topics` lowers `max_topics` to
`large_scale.max_topics_search` when large-scale mode is enabled. -/
def effMaxTopics (ls : LargeScale) (maxTopics : Nat) : Nat :=
  if ls.enabled then min maxTopics ls.maxTopicsSearch else maxTopics

/-- The candidate sweep `range(2, min(max_topics + 1, len(texts) // 2))`
of `find_optimal_topics`. -/
def topicSweepRange (n maxT : Nat) : List Nat :=
  pyRange 2 (min (maxT + 1) (n / 2))

/-- One trial of the sweep body: the gensim LDA fit plus coherence scoring
is the oracle `coh` (`none` models a raised exception); the `try/except`
records score 0 on failure. -/
def trialScore (coh : Nat → Option ℚ) (k : Nat) : ℚ :=
  (coh k).getD 0

/-- The `coherence_scores` list accumulated over the sweep. -/
def coherenceScores (coh : Nat → Option ℚ) (n maxT : Nat) : List ℚ :=
  (topicSweepRange n maxT).map (trialScore coh)

/-- `TopicDiscovery.find_optimal_topics`.  `coh` is the trial oracle,
`n` the number of documents, `maxTopics` the `max_topics` argument
(default 15 at the call site in `fit`).  Returns `none` when the sweep
range is empty (`np.argmax` raises `ValueError` on an empty score list). -/
def find_optimal_topics (coh : Nat → Option ℚ) (ls : LargeScale)
    (n maxTopics : Nat) : Option Nat :=
  let maxT := effMaxTopics ls maxTopics
  let r := topicSweepRange n maxT
  if r.isEmpty then none
  else some (r.getD (idxOfMax (coherenceScores coh n maxT)) 0)

/-! ### Cluster-count selection (`DocumentClustering.find_optimal_k`) -/
/-- The candidate sweep `range(2, min(max_k + 1, len(embeddings) // 2))`
of `find_optimal_k`. -/
def kSweepRange (n maxK : Nat) : List Nat :=
  pyRange 2 (min (maxK + 1) (n / 2))

/-- `len(np.unique(cluster_labels))`: number of distinct labels of a
trial partition. -/
def uniqueCount (labels : List Nat) : Nat :=
  labels.dedup.length

/-- One trial of the K sweep: KMeans labels come from the oracle
`kLabels`; the silhouette metric `sil` is consulted only when the
partition has more than one distinct label, otherwise score 0. -/
def kTrialScore (kLabels : Nat → List Nat) (sil : Nat → ℚ) (k : Nat) : ℚ :=
  if 1 < uniqueCount (kLabels k) then sil k else 0

/-- The `silhouette_scores` list accumulated over the K sweep. -/
def silhouetteScores (kLabels : Nat → List Nat) (sil : Nat → ℚ)
    (n maxK : Nat) : List ℚ :=
  (kSweepRange n maxK).map (kTrialScore kLabels sil)

/-- `DocumentClustering.find_optimal_k`.  Returns `none` when the sweep
range is empty (`np.argmax` raises `ValueError`). -/
def find_optimal_k (kLabels : Nat → List Nat) (sil : Nat → ℚ)
    (n maxK : Nat) : Option Nat :=
  let r := kSweepRange n maxK
  if r.isEmpty then none
  else some (r.getD (idxOfMax (silhouetteScores kLabels sil n maxK)) 0)

/-- The `max_k` computed in `cluster_documents`:
`min(n_clusters_range[1], len(texts) // 3)`. -/
def maxKFor (capHigh n : Nat) : Nat := min capHigh (n / 3)

/-! ### Topic assignment (`TopicDiscovery.assign_topics`) -/
/-- Model of `numpy.max` on a list (row-wise `.max(axis=1)`);
0 on `[]` (numpy raises there). -/
def npMax : List ℚ → ℚ
  | [] => 0
  | a :: l => l.foldl max a

/-- `TopicDiscovery.assign_topics`: the fitted model's
`transform` output (one topic-weight row per document) is reduced to
`(argmax(axis=1), max(axis=1))` pairs. -/
def assign_topics (dist : List (List ℚ)) : List (Nat × ℚ) :=
  dist.map (fun row => (idxOfMax row, npMax row))

/-! ### Top terms (`TopicDiscovery.get_top_terms`) -/
/-- Value-then-index order on positions of `v`: the stable
determinization of ascending `numpy.argsort` sorts by it. -/
def lexLe (v : List ℚ) (i j : Nat) : Prop :=
  v.getD i 0 < v.getD j 0 ∨ (v.getD i 0 = v.getD j 0 ∧ i ≤ j)

instance lexLe.instDecidable (v : List ℚ) : DecidableRel (lexLe v) :=
  fun i j => by unfold lexLe; infer_instance

/-- Strict version of `lexLe` (holds between distinct sorted positions). -/
def lexLt (v : List ℚ) (i j : Nat) : Prop :=
  v.getD i 0 < v.getD j 0 ∨ (v.getD i 0 = v.getD j 0 ∧ i < j)

/-- Model of `topic.argsort()`: the positions of `v` in ascending value
order.  numpy's default introsort leaves tie order unspecified; the model
is the stable determinization (ties in position order). -/
def argsortAsc (v : List ℚ) : List Nat :=
  List.insertionSort (lexLe v) (List.range v.length)

/-- Python slice `l[-n:]`; note that for `n = 0` it is the whole list. -/
def pyLastSlice {α : Type} (n : Nat) (l : List α) : List α :=
  if n = 0 then l else l.drop (l.length - n)

/-- `topic.argsort()[-n_terms:][::-1]` from `get_top_terms`. -/
def topIndices (v : List ℚ) (n : Nat) : List Nat :=
  (pyLastSlice n (argsortAsc v)).reverse

/-- `TopicDiscovery.get_top_terms`: for each row of `model.components_`,
the `(feature_names[i], topic[i])` pairs at the top-`n_terms` argsort
positions.  (The Python dict keyed by `topic_idx` is the positional
list.) -/
def get_top_terms (components : List (List ℚ)) (featureNames : List String)
    (n : Nat) : List (List (String × ℚ)) :=
  components.map (fun topic =>
    (topIndices topic n).map
      (fun i => (featureNames.getD i "", topic.getD i 0)))

/-! ### Cluster statistics (`DocumentClustering._create_cluster_stats`) -/
/-- Embedding vectors (rows of the embedding matrix). -/
abbrev Vec := List ℚ

/-- Componentwise vector addition. -/
def vecAdd (a b : Vec) : Vec := List.zipWith (· + ·) a b

/-- `cluster_embeddings.mean(axis=0)`: componentwise mean of the member
embeddings. -/
def centroid (vs : List Vec) : Vec :=
  match vs with
  | [] => []
  | v :: rest => (rest.foldl vecAdd v).map (fun x => x / (vs.length : ℚ))

/-- Dot product of two embedding rows. -/
def dotQ (a b : Vec) : ℚ := (List.zipWith (· * ·) a b).sum

/-- sklearn `cosine_similarity` of two rows: dot product divided by the
product of Euclidean norms. -/
noncomputable def cosineSim (a b : Vec) : ℝ :=
  (dotQ a b : ℝ) / (Real.sqrt ((dotQ a a : ℚ) : ℝ) * Real.sqrt ((dotQ b b : ℚ) : ℝ))

/-- `[i for i in range(len(texts)) if cluster_mask[i]]`: the member
document ids of cluster `c`, in ascending id order. -/
def memberIndices (labels : List Nat) (c : Nat) : List Nat :=
  (List.range labels.length).filter (fun i => labels.getD i 0 == c)

/-- The `similarities` array of `_create_cluster_stats`: each member's
cosine similarity to the cluster centroid. -/
noncomputable def clusterSimilarities (embeddings : List Vec)
    (labels : List Nat) (c : Nat) : List ℝ :=
  (memberIndices labels c).map (fun i =>
    cosineSim (embeddings.getD i [])
      (centroid ((memberIndices labels c).map
        (fun j => embeddings.getD j []))))

/-- The document id of the representative member chosen in
`_create_cluster_stats` (`cluster_texts[np.argmax(similarities)]`). -/
noncomputable def representativeId (embeddings : List Vec)
    (labels : List Nat) (c : Nat) : Nat :=
  (memberIndices labels c).getD
    (idxOfMax (clusterSimilarities embeddings labels c)) 0

/-! ### Model fitting (`TopicDiscovery.fit`,
`DocumentClustering.cluster_documents`) -/
/-- The fields of the caller-supplied `topic_discovery` configuration
dictionary read or written by `TopicDiscovery`. -/
structure TopicConfig where
  nTopics : Nat
  algorithm : String
  autoFindTopics : Bool
  minDf : Nat
  maxDf : ℚ
  topTermsPerTopic : Nat
  largeScale : LargeScale
  deriving DecidableEq, Repr

/-- Computation steps performed by `fit`, in order. -/
inductive FitStep
  | sampleLargeScale
  | searchTopics
  | vectorize
  | fitModel
  deriving DecidableEq, Repr

/-- Corpus size after the optional large-scale pre-sampling
(`_handle_large_scale_data` keeps `min(len(texts), sample_size)`
documents). -/
def sampledCount (cfg : TopicConfig) (n : Nat) : Nat :=
  if cfg.largeScale.enabled then min n cfg.largeScale.sampleSize else n

/-- Python `str.lower()` as applied to the (ASCII) algorithm names:
character-wise lowercasing. -/
def pyLower (s : String) : String := String.mk (s.data.map Char.toLower)

/-- The optimal-topic-search phase of `fit`: when `auto_find_topics` is
set, run `find_optimal_topics` and write the selected K into the
configuration's `n_topics`; propagate its `ValueError` on an empty
candidate range. -/
def searchPhase (cfg : TopicConfig) (coh : Nat → Option ℚ) (n : Nat) :
    List FitStep × Except String TopicConfig :=
  if cfg.autoFindTopics then
    match find_optimal_topics coh cfg.largeScale (sampledCount cfg n) 15 with
    | none => ([FitStep.searchTopics],
        Except.error "attempt to get argmax of an empty sequence")
    | some k => ([FitStep.searchTopics], Except.ok { cfg with nTopics := k })
  else ([], Except.ok cfg)

/-- `TopicDiscovery.fit` as the ordered list of computation steps
performed plus the outcome: the updated configuration on success, or the
raised error.  The algorithm-name check happens only AFTER the
vectorizer has been fitted (`CountVectorizer.fit_transform`) and after
the topic search; only the final `model.fit(X)` is guarded by it. -/
def fit (cfg : TopicConfig) (coh : Nat → Option ℚ) (n : Nat) :
    List FitStep × Except String TopicConfig :=
  let pre : List FitStep :=
    if cfg.largeScale.enabled then [FitStep.sampleLargeScale] else []
  match searchPhase cfg coh n with
  | (s, Except.error e) => (pre ++ s, Except.error e)
  | (s, Except.ok cfg') =>
    if pyLower cfg.algorithm = "lda" ∨ pyLower cfg.algorithm = "nmf" then
      (pre ++ s ++ [FitStep.vectorize, FitStep.fitModel], Except.ok cfg')
    else
      (pre ++ s ++ [FitStep.vectorize],
        Except.error ("unsupported algorithm: " ++ pyLower cfg.algorithm))

/-- The fields of the `clustering` configuration dictionary used by
`cluster_documents` (`capHigh` is `n_clusters_range[1]`). -/
structure ClusterConfig where
  algorithm : String
  capHigh : Nat
  deriving DecidableEq, Repr

/-- Computation steps performed by `cluster_documents`, in order. -/
inductive ClusterStep
  | embedStep
  | searchK
  | fitFinal
  deriving DecidableEq, Repr

/-- `DocumentClustering.cluster_documents`: create embeddings, select K
via `find_optimal_k` (with `max_k = min(n_clusters_range[1], n // 3)`),
check the algorithm name, then fit the final KMeans.  Returns the steps
performed and either `(optimal_k, cluster_labels)` or the raised
error. -/
def cluster_documents (ccfg : ClusterConfig) (kLabels : Nat → List Nat)
    (sil : Nat → ℚ) (finalLabels : Nat → List Nat) (n : Nat) :
    List ClusterStep × Except String (Nat × List Nat) :=
  match find_optimal_k kLabels sil n (maxKFor ccfg.capHigh n) with
  | none => ([ClusterStep.embedStep, ClusterStep.searchK],
      Except.error "attempt to get argmax of an empty sequence")
  | some k =>
    if ccfg.algorithm = "kmeans" then
      ([ClusterStep.embedStep, ClusterStep.searchK, ClusterStep.fitFinal],
        Except.ok (k, finalLabels k))
    else
      ([ClusterStep.embedStep, ClusterStep.searchK],
        Except.error ("unsupported clustering algorithm: " ++ ccfg.algorithm))

/-- The `topic_id` / `document_count` columns of the per-topic summary
built by `create_topic_summary`: one row per id in
`range(self.topic_config['n_topics'])`. -/
structure SummaryRow where
  topicId : Nat
  documentCount : Nat
  deriving DecidableEq, Repr

def create_topic_summary (cfg : TopicConfig) (assignments : List Nat) :
    List SummaryRow :=
  (List.range cfg.nTopics).map (fun t =>
    { topicId := t
      documentCount := (assignments.filter (fun a => a == t)).length })

/-! ### Pipeline determinism -/
/-- The stochastic / external collaborators of the pipeline, indexed by
the random seed where the library call takes one (`random_state` /
`random.seed`): gensim trial coherence, fitted-model transform output,
trial KMeans labels, silhouette metric, final KMeans labels, and the
embedding provider. -/
structure Oracles where
  coh : Nat → Nat → Option ℚ
  topicDist : Nat → Nat → List (List ℚ)
  kLabels : Nat → Nat → List Nat
  sil : Nat → ℚ
  finalLabels : Nat → Nat → List Nat
  embed : List String → List Vec

/-- Observable outcome of one pipeline run. -/
structure RunResult where
  topicK : Nat
  assignments : List (Nat × ℚ)
  clusterK : Nat
  clusterLabels : List Nat
  deriving DecidableEq

/-- One pipeline run (scripts 02–03): topic fit with automatic K
selection, per-document topic assignment, embedding, cluster-count
selection and final clustering.  Every stochastic call passes the fixed
seed 42, exactly as in the source. -/
def runPipeline (o : Oracles) (cfg : TopicConfig) (ccfg : ClusterConfig)
    (texts : List String) : Option RunResult :=
  match fit cfg (o.coh 42) texts.length with
  | (_, Except.error _) => none
  | (_, Except.ok cfg') =>
    let assigns := assign_topics (o.topicDist 42 cfg'.nTopics)
    let embs := o.embed texts
    match cluster_documents ccfg (o.kLabels 42) o.sil (o.finalLabels 42)
        embs.length with
    | (_, Except.error _) => none
    | (_, Except.ok (kC, labs)) => some ⟨cfg'.nTopics, assigns, kC, labs⟩

theorem idxOfMax_cons_cons {α : Type} [LinearOrder α] (a b : α) (t : List α) :
    idxOfMax (a :: b :: t)
      = if a < (b :: t).getD (idxOfMax (b :: t)) a then idxOfMax (b :: t) + 1
        else 0 := rfl

/-- The default value of `List.getD` is irrelevant in bounds. -/
theorem getD_default_irrel {α : Type} (l : List α) (i : Nat) (d d' : α)
    (h : i < l.length) : l.getD i d = l.getD i d' := by
  rw [List.getD_eq_getElem l d h, List.getD_eq_getElem l d' h]

/-- `idxOfMax` is a valid index of any non-empty list. -/
theorem idxOfMax_lt_length {α : Type} [LinearOrder α] :
    ∀ l : List α, l ≠ [] → idxOfMax l < l.length
  | [], h => absurd rfl h
  | [_], _ => by simp [idxOfMax]
  | a :: b :: t, _ => by
    have ih := idxOfMax_lt_length (b :: t) (by simp)
    rw [idxOfMax_cons_cons]
    by_cases hc : a < (b :: t).getD (idxOfMax (b :: t)) a
    · rw [if_pos hc]
      simpa using Nat.succ_lt_succ ih
    · rw [if_neg hc]
      simp

/-- The element at `idxOfMax` is greatest:
every element of the list is `≤` it. -/
theorem getD_le_idxOfMax {α : Type} [LinearOrder α] :
    ∀ (l : List α) (i : Nat) (d : α), i < l.length →
      l.getD i d ≤ l.getD (idxOfMax l) d
  | [], _, _, h => absurd h (by simp)
  | [_], i, d, h => by
    have hi : i = 0 := by simpa using Nat.lt_one_iff.mp (by simpa using h)
    subst hi
    simp [idxOfMax]
  | a :: b :: t, i, d, h => by
    have ih := fun (i : Nat) (hh : i < (b :: t).length) =>
      getD_le_idxOfMax (b :: t) i d hh
    have hlt := idxOfMax_lt_length (b :: t) (by simp)
    have hdd : (b :: t).getD (idxOfMax (b :: t)) a
        = (b :: t).getD (idxOfMax (b :: t)) d :=
      getD_default_irrel _ _ _ _ hlt
    rw [idxOfMax_cons_cons]
    by_cases hc : a < (b :: t).getD (idxOfMax (b :: t)) a
    · rw [if_pos hc]
      match i with
      | 0 =>
        rw [List.getD_cons_zero, List.getD_cons_succ]
        rw [hdd] at hc
        exact le_of_lt hc
      | i + 1 =>
        rw [List.getD_cons_succ, List.getD_cons_succ]
        exact ih i (by simpa using h)
    · rw [if_neg hc, List.getD_cons_zero]
      rw [hdd] at hc
      push_neg at hc
      match i with
      | 0 => rw [List.getD_cons_zero]
      | i + 1 =>
        rw [List.getD_cons_succ]
        exact le_trans (ih i (by simpa using h)) hc

/-- `idxOfMax` picks the FIRST maximum: every earlier element is
strictly smaller. -/
theorem getD_lt_of_lt_idxOfMax {α : Type} [LinearOrder α] :
    ∀ (l : List α) (i : Nat) (d : α), i < idxOfMax l →
      l.getD i d < l.getD (idxOfMax l) d
  | [], i, _, h => by simp [idxOfMax] at h
  | [_], i, _, h => by simp [idxOfMax] at h
  | a :: b :: t, i, d, h => by
    have ih := fun (i : Nat) (hh : i < idxOfMax (b :: t)) =>
      getD_lt_of_lt_idxOfMax (b :: t) i d hh
    have hlt := idxOfMax_lt_length (b :: t) (by simp)
    have hdd : (b :: t).getD (idxOfMax (b :: t)) a
        = (b :: t).getD (idxOfMax (b :: t)) d :=
      getD_default_irrel _ _ _ _ hlt
    rw [idxOfMax_cons_cons] at h ⊢
    by_cases hc : a < (b :: t).getD (idxOfMax (b :: t)) a
    · rw [if_pos hc] at h ⊢
      match i with
      | 0 =>
        rw [List.getD_cons_zero, List.getD_cons_succ]
        rw [hdd] at hc
        exact hc
      | i + 1 =>
        rw [List.getD_cons_succ, List.getD_cons_succ]
        exact ih i (by omega)
    · rw [if_neg hc] at h
      omega

theorem pyRange_length (a b : Nat) : (pyRange a b).length = b - a := by
  simp [pyRange]

theorem pyRange_getD (a b i : Nat) (h : i < b - a) :
    (pyRange a b).getD i 0 = a + i := by
  rw [List.getD_eq_getElem _ _ (by simpa [pyRange_length] using h)]
  simp [pyRange, List.getElem_range']

theorem mem_pyRange {a b k : Nat} : k ∈ pyRange a b ↔ a ≤ k ∧ k < b := by
  constructor
  · intro hk
    obtain ⟨i, hi, rfl⟩ := List.mem_range'.mp hk
    omega
  · intro ⟨h1, h2⟩
    exact List.mem_range'.mpr ⟨k - a, by omega, by omega⟩

theorem pyRange_ne_nil {a b : Nat} (h : a < b) : pyRange a b ≠ [] := by
  have : (pyRange a b).length ≠ 0 := by rw [pyRange_length]; omega
  exact fun hn => this (by rw [hn]; rfl)

/-! ### Shared selection lemmas -/
theorem getD_map {α β : Type} (f : α → β) (l : List α) (i : Nat)
    (h : i < l.length) (d : α) (d' : β) :
    (l.map f).getD i d' = f (l.getD i d) := by
  rw [List.getD_eq_getElem _ _ (by simpa using h), List.getD_eq_getElem _ _ h]
  simp

/-- Both K selectors are `range[np.argmax(list(map(score, range)))]` over
`range = pyRange 2 m`.  The selected candidate is a member of the range,
attains the maximum score, and is the smallest candidate doing so. -/
theorem pyRange_select_spec (f : Nat → ℚ) (m : Nat) (hm : 3 ≤ m) :
    let r := pyRange 2 m
    let k := r.getD (idxOfMax (r.map f)) 0
    k ∈ r ∧ (∀ k' ∈ r, f k' ≤ f k) ∧ (∀ k' ∈ r, f k' = f k → k ≤ k') := by
  intro r k
  have hlen : r.length = m - 2 := pyRange_length 2 m
  have hne : r ≠ [] := pyRange_ne_nil (by omega)
  have hmapne : r.map f ≠ [] := by
    intro hcon
    exact hne (List.map_eq_nil_iff.mp hcon)
  have hidx : idxOfMax (r.map f) < r.length := by
    have := idxOfMax_lt_length (r.map f) hmapne
    simpa using this
  have hkval : k = 2 + idxOfMax (r.map f) := by
    show r.getD (idxOfMax (r.map f)) 0 = 2 + idxOfMax (r.map f)
    exact pyRange_getD 2 m _ (by omega)
  have hscore : ∀ i, i < r.length → (r.map f).getD i 0 = f (r.getD i 0) :=
    fun i hi => getD_map f r i hi 0 0
  refine ⟨?_, ?_, ?_⟩
  · show r.getD (idxOfMax (r.map f)) 0 ∈ r
    rw [List.getD_eq_getElem _ _ hidx]
    exact List.getElem_mem hidx
  · intro k' hk'
    obtain ⟨h2, hlt⟩ := mem_pyRange.mp hk'
    have hi : k' - 2 < r.length := by omega
    have hk'val : r.getD (k' - 2) 0 = k' := by
      rw [pyRange_getD 2 m _ (by omega)]; omega
    have := getD_le_idxOfMax (r.map f) (k' - 2) 0 (by simpa using hi)
    rw [hscore _ hi, hscore _ hidx, hk'val] at this
    exact this
  · intro k' hk' heq
    obtain ⟨h2, hlt⟩ := mem_pyRange.mp hk'
    have hi : k' - 2 < r.length := by omega
    have hk'val : r.getD (k' - 2) 0 = k' := by
      rw [pyRange_getD 2 m _ (by omega)]; omega
    by_contra hcon
    push_neg at hcon
    have hlt2 : k' - 2 < idxOfMax (r.map f) := by omega
    have := getD_lt_of_lt_idxOfMax (r.map f) (k' - 2) 0 hlt2
    rw [hscore _ hi, hscore _ hidx, hk'val] at this
    exact absurd heq (ne_of_lt this)

theorem find_optimal_topics_eq_some {coh : Nat → Option ℚ} {ls : LargeScale}
    {n maxTopics : Nat} (h : topicSweepRange n (effMaxTopics ls maxTopics) ≠ []) :
    find_optimal_topics coh ls n maxTopics
      = some ((topicSweepRange n (effMaxTopics ls maxTopics)).getD
          (idxOfMax (coherenceScores coh n (effMaxTopics ls maxTopics))) 0) := by
  rw [find_optimal_topics]
  simp only [List.isEmpty_iff]
  rw [if_neg h]

theorem find_optimal_k_eq_some {kLabels : Nat → List Nat} {sil : Nat → ℚ}
    {n maxK : Nat} (h : kSweepRange n maxK ≠ []) :
    find_optimal_k kLabels sil n maxK
      = some ((kSweepRange n maxK).getD
          (idxOfMax (silhouetteScores kLabels sil n maxK)) 0) := by
  rw [find_optimal_k]
  simp only [List.isEmpty_iff]
  rw [if_neg h]

/-- C1 counterexample: with exactly N = 4 documents (which satisfies the
claim's hypothesis N ≥ 4) both sweep ranges `range(2, min(cap+1, 4//2))`
and `range(2, min(max_k+1, 4//2))` are empty, so `np.argmax` is applied
to an empty score list and both selectors raise instead of returning a
K in the claimed interval. -/
theorem topic_cluster_selectors_crash_at_four :
    find_optimal_topics (fun _ => some 1) ⟨false, 10, 1000⟩ 4 15 = none ∧
    find_optimal_k (fun _ => [0, 1]) (fun _ => 1) 4 (maxKFor 15 4) = none := by
  constructor <;> rfl

/-- C1 (amended): for a corpus of N ≥ 6 documents, an effective topic cap
≥ 2 and an effective cluster cap `min(n_clusters_range[1], N/3)` ≥ 2, the
topic selector returns K with 2 ≤ K ≤ min(cap, N/2) and the cluster
selector (invoked with max_k as computed in `cluster_documents`) returns
K with 2 ≤ K ≤ min(cap, N/3).  For N ∈ {4, 5} both selectors raise on an
empty candidate range instead. -/
theorem selector_bounds (coh : Nat → Option ℚ) (ls : LargeScale)
    (n maxTopics : Nat) (kLabels : Nat → List Nat) (sil : Nat → ℚ)
    (capHigh : Nat) (hn : 6 ≤ n) (hcap : 2 ≤ effMaxTopics ls maxTopics)
    (hcapK : 2 ≤ maxKFor capHigh n) :
    (∃ k, find_optimal_topics coh ls n maxTopics = some k ∧ 2 ≤ k ∧
      k ≤ min (effMaxTopics ls maxTopics) (n / 2)) ∧
    (∃ k, find_optimal_k kLabels sil n (maxKFor capHigh n) = some k ∧ 2 ≤ k ∧
      k ≤ maxKFor capHigh n) := by
  have hhalf : 3 ≤ n / 2 := by omega
  constructor
  · have hm : 3 ≤ min (effMaxTopics ls maxTopics + 1) (n / 2) := by omega
    have hsel := pyRange_select_spec (trialScore coh)
      (min (effMaxTopics ls maxTopics + 1) (n / 2)) hm
    obtain ⟨hmem, -, -⟩ := hsel
    have hne : topicSweepRange n (effMaxTopics ls maxTopics) ≠ [] :=
      pyRange_ne_nil (by omega)
    refine ⟨_, find_optimal_topics_eq_some hne, ?_⟩
    have heq : (topicSweepRange n (effMaxTopics ls maxTopics)).getD
        (idxOfMax (coherenceScores coh n (effMaxTopics ls maxTopics))) 0
        = (pyRange 2 (min (effMaxTopics ls maxTopics + 1) (n / 2))).getD
            (idxOfMax ((pyRange 2 (min (effMaxTopics ls maxTopics + 1)
              (n / 2))).map (trialScore coh))) 0 := rfl
    rw [heq]
    have := mem_pyRange.mp hmem
    omega
  · have hm : 3 ≤ min (maxKFor capHigh n + 1) (n / 2) := by omega
    have hsel := pyRange_select_spec (kTrialScore kLabels sil)
      (min (maxKFor capHigh n + 1) (n / 2)) hm
    obtain ⟨hmem, -, -⟩ := hsel
    have hne : kSweepRange n (maxKFor capHigh n) ≠ [] :=
      pyRange_ne_nil (by omega)
    refine ⟨_, find_optimal_k_eq_some hne, ?_⟩
    have heq : (kSweepRange n (maxKFor capHigh n)).getD
        (idxOfMax (silhouetteScores kLabels sil n (maxKFor capHigh n))) 0
        = (pyRange 2 (min (maxKFor capHigh n + 1) (n / 2))).getD
            (idxOfMax ((pyRange 2 (min (maxKFor capHigh n + 1)
              (n / 2))).map (kTrialScore kLabels sil))) 0 := rfl
    rw [heq]
    have := mem_pyRange.mp hmem
    omega

/-- C1 witness: a concrete corpus size (N = 20, caps 15) on which the
amended bounds are realised. -/
theorem selector_bounds_witness :
    (∃ k, find_optimal_topics (fun _ => some 1) ⟨false, 10, 1000⟩ 20 15
        = some k ∧ 2 ≤ k ∧ k ≤ min (effMaxTopics ⟨false, 10, 1000⟩ 15) (20 / 2)) ∧
    (∃ k, find_optimal_k (fun _ => [0, 1]) (fun _ => 1) 20 (maxKFor 15 20)
        = some k ∧ 2 ≤ k ∧ k ≤ maxKFor 15 20) :=
  selector_bounds (fun _ => some 1) ⟨false, 10, 1000⟩ 20 15
    (fun _ => [0, 1]) (fun _ => 1) 15 (by decide) (by decide) (by decide)

/-- C5: in both sweeps the selected K belongs to the candidate range,
attains the maximum recorded score, and is the smallest candidate
attaining it (the arg-max takes the first maximum of the ascending
sweep). -/
theorem selected_k_is_first_max (coh : Nat → Option ℚ) (ls : LargeScale)
    (n maxTopics : Nat) (kLabels : Nat → List Nat) (sil : Nat → ℚ)
    (maxK : Nat) :
    (∀ k, find_optimal_topics coh ls n maxTopics = some k →
      k ∈ topicSweepRange n (effMaxTopics ls maxTopics) ∧
      (∀ k' ∈ topicSweepRange n (effMaxTopics ls maxTopics),
        trialScore coh k' ≤ trialScore coh k) ∧
      (∀ k' ∈ topicSweepRange n (effMaxTopics ls maxTopics),
        trialScore coh k' = trialScore coh k → k ≤ k')) ∧
    (∀ k, find_optimal_k kLabels sil n maxK = some k →
      k ∈ kSweepRange n maxK ∧
      (∀ k' ∈ kSweepRange n maxK,
        kTrialScore kLabels sil k' ≤ kTrialScore kLabels sil k) ∧
      (∀ k' ∈ kSweepRange n maxK,
        kTrialScore kLabels sil k' = kTrialScore kLabels sil k → k ≤ k')) := by
  constructor
  · intro k hk
    have hne : topicSweepRange n (effMaxTopics ls maxTopics) ≠ [] := by
      intro hcon
      rw [find_optimal_topics] at hk
      simp only [List.isEmpty_iff] at hk
      rw [if_pos hcon] at hk
      exact Option.noConfusion hk
    have hm : 3 ≤ min (effMaxTopics ls maxTopics + 1) (n / 2) := by
      have := pyRange_length 2 (min (effMaxTopics ls maxTopics + 1) (n / 2))
      by_contra hcon
      apply hne
      apply List.eq_nil_of_length_eq_zero
      rw [topicSweepRange, pyRange_length]
      omega
    have hsel := pyRange_select_spec (trialScore coh)
      (min (effMaxTopics ls maxTopics + 1) (n / 2)) hm
    rw [find_optimal_topics_eq_some hne] at hk
    have hkeq : k = (topicSweepRange n (effMaxTopics ls maxTopics)).getD
        (idxOfMax (coherenceScores coh n (effMaxTopics ls maxTopics))) 0 :=
      (Option.some_injective _ hk).symm
    rw [hkeq]
    exact hsel
  · intro k hk
    have hne : kSweepRange n maxK ≠ [] := by
      intro hcon
      rw [find_optimal_k] at hk
      simp only [List.isEmpty_iff] at hk
      rw [if_pos hcon] at hk
      exact Option.noConfusion hk
    have hm : 3 ≤ min (maxK + 1) (n / 2) := by
      by_contra hcon
      apply hne
      apply List.eq_nil_of_length_eq_zero
      rw [kSweepRange, pyRange_length]
      omega
    have hsel := pyRange_select_spec (kTrialScore kLabels sil)
      (min (maxK + 1) (n / 2)) hm
    rw [find_optimal_k_eq_some hne] at hk
    have hkeq : k = (kSweepRange n maxK).getD
        (idxOfMax (silhouetteScores kLabels sil n maxK)) 0 :=
      (Option.some_injective _ hk).symm
    rw [hkeq]
    exact hsel

/-- C5 witness: concrete sweep with a tied maximum (scores 1, 1, 0 for
candidates 2, 3, 4): the selector must return the smaller tied K = 2. -/
theorem selected_k_is_first_max_witness :
    2 ∈ topicSweepRange 10 15 ∧
    (∀ k' ∈ topicSweepRange 10 15,
      trialScore (fun k => if k ≤ 3 then some 1 else some 0) k'
        ≤ trialScore (fun k => if k ≤ 3 then some 1 else some 0) 2) ∧
    (∀ k' ∈ topicSweepRange 10 15,
      trialScore (fun k => if k ≤ 3 then some 1 else some 0) k'
        = trialScore (fun k => if k ≤ 3 then some 1 else some 0) 2 → 2 ≤ k') :=
  (selected_k_is_first_max (fun k => if k ≤ 3 then some 1 else some 0)
    ⟨false, 10, 1000⟩ 10 15 (fun _ => [0, 1]) (fun _ => 1) 5).1 2 (by rfl)

/-- C6: every candidate of the topic sweep receives exactly one recorded
score; a candidate whose trial raises (oracle returns `none`) is recorded
with score 0; and the sweep still completes and selects some K whenever
the candidate range is non-empty. -/
theorem failed_trial_scored_zero (coh : Nat → Option ℚ) (ls : LargeScale)
    (n maxTopics : Nat) :
    (coherenceScores coh n (effMaxTopics ls maxTopics)).length
        = (topicSweepRange n (effMaxTopics ls maxTopics)).length ∧
    (∀ i, i < (topicSweepRange n (effMaxTopics ls maxTopics)).length →
      (coherenceScores coh n (effMaxTopics ls maxTopics)).getD i 0
        = trialScore coh
            ((topicSweepRange n (effMaxTopics ls maxTopics)).getD i 0)) ∧
    (∀ k, coh k = none → trialScore coh k = 0) ∧
    (topicSweepRange n (effMaxTopics ls maxTopics) ≠ [] →
      ∃ k, find_optimal_topics coh ls n maxTopics = some k) := by
  refine ⟨by simp [coherenceScores], ?_, ?_, ?_⟩
  · intro i hi
    exact getD_map (trialScore coh) _ i hi 0 0
  · intro k hk
    simp [trialScore, hk]
  · intro hne
    exact ⟨_, find_optimal_topics_eq_some hne⟩

/-- C6 witness: a sweep over N = 10 documents where the trial at K = 3
raises; its score is recorded as 0 and the selector still returns a K. -/
theorem failed_trial_scored_zero_witness :
    trialScore (fun k => if k = 3 then none else some 1) 3 = 0 ∧
    ∃ k, find_optimal_topics (fun k => if k = 3 then none else some 1)
      ⟨false, 10, 1000⟩ 10 15 = some k :=
  ⟨(failed_trial_scored_zero (fun k => if k = 3 then none else some 1)
      ⟨false, 10, 1000⟩ 10 15).2.2.1 3 (by rfl),
   (failed_trial_scored_zero (fun k => if k = 3 then none else some 1)
      ⟨false, 10, 1000⟩ 10 15).2.2.2 (by decide)⟩

/-- C7: a trial partition with at most one distinct label is scored 0,
and the silhouette metric is never consulted for such a K: replacing the
metric by any other function agreeing on the non-degenerate candidates
changes neither the recorded scores nor the selected K. -/
theorem degenerate_partition_skips_silhouette (kLabels : Nat → List Nat)
    (sil : Nat → ℚ) (n maxK : Nat) :
    (∀ k, uniqueCount (kLabels k) ≤ 1 → kTrialScore kLabels sil k = 0) ∧
    (∀ sil' : Nat → ℚ,
      (∀ k, 1 < uniqueCount (kLabels k) → sil' k = sil k) →
      silhouetteScores kLabels sil' n maxK
          = silhouetteScores kLabels sil n maxK ∧
      find_optimal_k kLabels sil' n maxK
          = find_optimal_k kLabels sil n maxK) := by
  have htrial : ∀ (sil' : Nat → ℚ),
      (∀ k, 1 < uniqueCount (kLabels k) → sil' k = sil k) →
      kTrialScore kLabels sil' = kTrialScore kLabels sil := by
    intro sil' hagree
    funext k
    by_cases hdeg : 1 < uniqueCount (kLabels k)
    · simp [kTrialScore, hdeg, hagree k hdeg]
    · simp [kTrialScore, hdeg]
  refine ⟨?_, ?_⟩
  · intro k hk
    have : ¬ 1 < uniqueCount (kLabels k) := by omega
    simp [kTrialScore, this]
  · intro sil' hagree
    have h := htrial sil' hagree
    constructor
    · rw [silhouetteScores, silhouetteScores, h]
    · rw [find_optimal_k, find_optimal_k, silhouetteScores, silhouetteScores, h]

theorem foldl_max_max (t : List ℚ) : ∀ a b : ℚ,
    t.foldl max (max a b) = max a (t.foldl max b) := by
  induction t with
  | nil => intro a b; rfl
  | cons c t ih =>
    intro a b
    show t.foldl max (max (max a b) c) = max a (t.foldl max (max b c))
    rw [max_assoc, ih]

theorem npMax_cons_cons (a b : ℚ) (t : List ℚ) :
    npMax (a :: b :: t) = max a (npMax (b :: t)) := by
  show (b :: t).foldl max a = max a (t.foldl max b)
  show t.foldl max (max a b) = max a (t.foldl max b)
  exact foldl_max_max t a b

/-- `numpy`'s row max equals the value at the row arg-max. -/
theorem npMax_eq_getD_idxOfMax :
    ∀ (l : List ℚ), l ≠ [] → ∀ d : ℚ, npMax l = l.getD (idxOfMax l) d
  | [], h, _ => absurd rfl h
  | [a], _, d => by simp [npMax, idxOfMax]
  | a :: b :: t, _, d => by
    have ih := npMax_eq_getD_idxOfMax (b :: t) (by simp) d
    have hlt := idxOfMax_lt_length (b :: t) (by simp)
    have hdd : (b :: t).getD (idxOfMax (b :: t)) a
        = (b :: t).getD (idxOfMax (b :: t)) d :=
      getD_default_irrel _ _ _ _ hlt
    rw [npMax_cons_cons, idxOfMax_cons_cons]
    by_cases hc : a < (b :: t).getD (idxOfMax (b :: t)) a
    · rw [if_pos hc, List.getD_cons_succ, ← ih]
      rw [hdd, ← ih] at hc
      exact max_eq_right (le_of_lt hc)
    · rw [if_neg hc, List.getD_cons_zero]
      rw [hdd, ← ih] at hc
      push_neg at hc
      exact max_eq_left hc

/-- C3 counterexample: the factorization-based variant (NMF) produces
non-negative but unnormalised document-topic weight rows; on the
attainable row `[0, 2]` the assigned confidence is `2 ∉ [0, 1]`.
The code applies no normalisation or clamping. -/
theorem assign_topics_confidence_above_one :
    assign_topics [[0, 2]] = [(1, 2)] ∧ ¬ ((2 : ℚ) ≤ 1) := by
  constructor
  · decide
  · norm_num

/-- C3 (amended): for every document row of the transform output,
`assign_topics` returns the index of the first maximal entry as
`topic_id` and that maximum as `confidence`; whenever the row is a
probability distribution (entries ≥ 0 summing to 1 — always the case for
the generative-probabilistic variant, whose transform rows are
normalised), the confidence lies in [0, 1].  The factorization-based
variant guarantees only non-negativity, so the upper bound is not
enforced. -/
theorem assign_topics_argmax_confidence (dist : List (List ℚ)) (i : Nat)
    (hi : i < dist.length) (hrow : dist.getD i [] ≠ []) :
    ((assign_topics dist).getD i (0, 0)).1 = idxOfMax (dist.getD i []) ∧
    ((assign_topics dist).getD i (0, 0)).2 = npMax (dist.getD i []) ∧
    idxOfMax (dist.getD i []) < (dist.getD i []).length ∧
    (dist.getD i []).getD (idxOfMax (dist.getD i [])) 0
        = npMax (dist.getD i []) ∧
    (∀ j, j < (dist.getD i []).length →
      (dist.getD i []).getD j 0 ≤ npMax (dist.getD i [])) ∧
    (∀ j, j < idxOfMax (dist.getD i []) →
      (dist.getD i []).getD j 0 < npMax (dist.getD i [])) ∧
    ((∀ x ∈ dist.getD i [], 0 ≤ x) → (dist.getD i []).sum = 1 →
      0 ≤ npMax (dist.getD i []) ∧ npMax (dist.getD i []) ≤ 1) := by
  have ha : (assign_topics dist).getD i (0, 0)
      = (idxOfMax (dist.getD i []), npMax (dist.getD i [])) := by
    rw [assign_topics, getD_map _ dist i hi [] (0, 0)]
  have hmax : npMax (dist.getD i [])
      = (dist.getD i []).getD (idxOfMax (dist.getD i [])) 0 :=
    npMax_eq_getD_idxOfMax _ hrow 0
  refine ⟨by rw [ha], by rw [ha], idxOfMax_lt_length _ hrow, hmax.symm,
    ?_, ?_, ?_⟩
  · intro j hj
    rw [hmax]
    exact getD_le_idxOfMax _ j 0 hj
  · intro j hj
    rw [hmax]
    exact getD_lt_of_lt_idxOfMax _ j 0 hj
  · intro hnn hsum
    rw [hmax]
    have hidx : idxOfMax (dist.getD i []) < (dist.getD i []).length :=
      idxOfMax_lt_length _ hrow
    have hmem : (dist.getD i []).getD (idxOfMax (dist.getD i [])) 0
        ∈ dist.getD i [] := by
      rw [List.getD_eq_getElem _ _ hidx]
      exact List.getElem_mem hidx
    constructor
    · exact hnn _ hmem
    · calc (dist.getD i []).getD (idxOfMax (dist.getD i [])) 0
          ≤ (dist.getD i []).sum := List.single_le_sum hnn _ hmem
        _ = 1 := hsum

/-- C3 witness: a two-document transform output whose rows are proper
distributions; the first row's argmax and max govern the assignment. -/
theorem assign_topics_argmax_confidence_witness :
    ((assign_topics [[2/5, 3/5], [1/2, 1/2]]).getD 0 (0, 0)).1
        = idxOfMax (([[2/5, 3/5], [1/2, 1/2]] : List (List ℚ)).getD 0 []) ∧
    ((assign_topics [[2/5, 3/5], [1/2, 1/2]]).getD 0 (0, 0)).2
        = npMax (([[2/5, 3/5], [1/2, 1/2]] : List (List ℚ)).getD 0 []) ∧
    idxOfMax (([[2/5, 3/5], [1/2, 1/2]] : List (List ℚ)).getD 0 [])
        < (([[2/5, 3/5], [1/2, 1/2]] : List (List ℚ)).getD 0 []).length ∧
    (([[2/5, 3/5], [1/2, 1/2]] : List (List ℚ)).getD 0 []).getD
        (idxOfMax (([[2/5, 3/5], [1/2, 1/2]] : List (List ℚ)).getD 0 [])) 0
      = npMax (([[2/5, 3/5], [1/2, 1/2]] : List (List ℚ)).getD 0 []) ∧
    (∀ j, j < (([[2/5, 3/5], [1/2, 1/2]] : List (List ℚ)).getD 0 []).length →
      (([[2/5, 3/5], [1/2, 1/2]] : List (List ℚ)).getD 0 []).getD j 0
        ≤ npMax (([[2/5, 3/5], [1/2, 1/2]] : List (List ℚ)).getD 0 [])) ∧
    (∀ j, j < idxOfMax (([[2/5, 3/5], [1/2, 1/2]] : List (List ℚ)).getD 0 []) →
      (([[2/5, 3/5], [1/2, 1/2]] : List (List ℚ)).getD 0 []).getD j 0
        < npMax (([[2/5, 3/5], [1/2, 1/2]] : List (List ℚ)).getD 0 [])) ∧
    ((∀ x ∈ ([[2/5, 3/5], [1/2, 1/2]] : List (List ℚ)).getD 0 [], 0 ≤ x) →
      (([[2/5, 3/5], [1/2, 1/2]] : List (List ℚ)).getD 0 []).sum = 1 →
      0 ≤ npMax (([[2/5, 3/5], [1/2, 1/2]] : List (List ℚ)).getD 0 []) ∧
      npMax (([[2/5, 3/5], [1/2, 1/2]] : List (List ℚ)).getD 0 []) ≤ 1) :=
  assign_topics_argmax_confidence [[2/5, 3/5], [1/2, 1/2]] 0
    (by decide) (by decide)

theorem lexLe_total (v : List ℚ) : ∀ i j, lexLe v i j ∨ lexLe v j i := by
  intro i j
  rcases lt_trichotomy (v.getD i 0) (v.getD j 0) with h | h | h
  · exact Or.inl (Or.inl h)
  · rcases Nat.le_total i j with hij | hij
    · exact Or.inl (Or.inr ⟨h, hij⟩)
    · exact Or.inr (Or.inr ⟨h.symm, hij⟩)
  · exact Or.inr (Or.inl h)

theorem lexLe_trans (v : List ℚ) :
    ∀ i j k, lexLe v i j → lexLe v j k → lexLe v i k := by
  intro i j k hij hjk
  rcases hij with h1 | ⟨h1, h1'⟩ <;> rcases hjk with h2 | ⟨h2, h2'⟩
  · exact Or.inl (lt_trans h1 h2)
  · exact Or.inl (h2 ▸ h1)
  · exact Or.inl (h1 ▸ h2)
  · exact Or.inr ⟨h1.trans h2, le_trans h1' h2'⟩

theorem argsortAsc_sorted (v : List ℚ) :
    List.Sorted (lexLe v) (argsortAsc v) := by
  haveI : IsTotal Nat (lexLe v) := ⟨lexLe_total v⟩
  haveI : IsTrans Nat (lexLe v) := ⟨fun a b c => lexLe_trans v a b c⟩
  exact List.sorted_insertionSort _ _

theorem argsortAsc_perm (v : List ℚ) :
    List.Perm (argsortAsc v) (List.range v.length) :=
  List.perm_insertionSort _ _

theorem argsortAsc_nodup (v : List ℚ) : (argsortAsc v).Nodup :=
  (argsortAsc_perm v).nodup_iff.mpr (List.nodup_range v.length)

theorem argsortAsc_pairwise_lt (v : List ℚ) :
    List.Pairwise (lexLt v) (argsortAsc v) := by
  have h := (argsortAsc_sorted v).and (argsortAsc_nodup v)
  exact h.imp (by
    intro i j ⟨hle, hne⟩
    rcases hle with h1 | ⟨h1, h1'⟩
    · exact Or.inl h1
    · exact Or.inr ⟨h1, lt_of_le_of_ne h1' hne⟩)

theorem pyLastSlice_sublist {α : Type} (n : Nat) (l : List α) :
    List.Sublist (pyLastSlice n l) l := by
  unfold pyLastSlice
  by_cases h : n = 0
  · rw [if_pos h]
  · rw [if_neg h]
    exact List.drop_sublist _ _

/-- The reversed tail slice is descending: strictly decreasing weights,
with equal weights in strictly decreasing vocabulary position. -/
theorem topIndices_pairwise (v : List ℚ) (n : Nat) :
    List.Pairwise (fun i j => lexLt v j i) (topIndices v n) := by
  have h := (argsortAsc_pairwise_lt v).sublist (pyLastSlice_sublist n _)
  exact List.pairwise_reverse.mpr h

theorem topIndices_mem_lt (v : List ℚ) (n : Nat) :
    ∀ i ∈ topIndices v n, i < v.length := by
  intro i hi
  have h1 : i ∈ pyLastSlice n (argsortAsc v) := List.mem_reverse.mp hi
  have h2 : i ∈ argsortAsc v := (pyLastSlice_sublist n _).mem h1
  have h3 : i ∈ List.range v.length := (argsortAsc_perm v).mem_iff.mp h2
  exact List.mem_range.mp h3

theorem argsortAsc_length (v : List ℚ) :
    (argsortAsc v).length = v.length := by
  rw [(argsortAsc_perm v).length_eq, List.length_range]

theorem topIndices_length (v : List ℚ) (n : Nat) (hn : 1 ≤ n) :
    (topIndices v n).length = min n v.length := by
  unfold topIndices pyLastSlice
  rw [if_neg (by omega : ¬ n = 0)]
  rw [List.length_reverse, List.length_drop, argsortAsc_length]
  omega

/-- Every selected index dominates every unselected one: the slice really
is the top `n` by weight. -/
theorem topIndices_dominate (v : List ℚ) (n : Nat) :
    ∀ i ∈ topIndices v n, ∀ j, j < v.length → j ∉ topIndices v n →
      v.getD j 0 ≤ v.getD i 0 := by
  intro i hi j hj hnot
  have hiS : i ∈ pyLastSlice n (argsortAsc v) := List.mem_reverse.mp hi
  have hjR : j ∈ argsortAsc v :=
    (argsortAsc_perm v).mem_iff.mpr (List.mem_range.mpr hj)
  have hjnot : j ∉ pyLastSlice n (argsortAsc v) := by
    intro hcon
    exact hnot (List.mem_reverse.mpr hcon)
  by_cases h0 : n = 0
  · exact absurd (by simpa [pyLastSlice, h0] using hjR) hjnot
  have hsplit : (argsortAsc v).take ((argsortAsc v).length - n)
      ++ pyLastSlice n (argsortAsc v) = argsortAsc v := by
    unfold pyLastSlice
    rw [if_neg h0]
    exact List.take_append_drop _ _
  have hsorted := argsortAsc_sorted v
  rw [← hsplit] at hsorted
  obtain ⟨-, -, hcross⟩ := List.pairwise_append.mp hsorted
  have hjtake : j ∈ (argsortAsc v).take ((argsortAsc v).length - n) := by
    rw [← hsplit] at hjR
    rcases List.mem_append.mp hjR with h | h
    · exact h
    · exact absurd h hjnot
  have := hcross j hjtake i hiS
  rcases this with h | ⟨h, -⟩
  · exact le_of_lt h
  · exact le_of_eq h

/-- C8 counterexample: two terms of equal weight.  The claim requires
stable vocabulary order `[("a", 1), ("b", 1)]`, but
`argsort()[-n:][::-1]` reverses the (stable) ascending order, so the tie
comes out in REVERSE vocabulary order. -/
theorem get_top_terms_tie_order_reversed :
    get_top_terms [[1, 1]] ["a", "b"] 2 = [[("b", 1), ("a", 1)]] ∧
    get_top_terms [[1, 1]] ["a", "b"] 2 ≠ [[("a", 1), ("b", 1)]] := by
  constructor <;> decide

/-- C8 (amended): `get_top_terms` returns, per topic row, the `n`
highest-weight terms in non-increasing weight order, but terms of equal
weight appear in REVERSE vocabulary order (under the stable
determinization of numpy's argsort; the actual library sort leaves tie
order unspecified). -/
theorem get_top_terms_descending (components : List (List ℚ))
    (featureNames : List String) (n : Nat) (hn : 1 ≤ n) :
    (∀ topic ∈ components,
      (topIndices topic n).length = min n topic.length ∧
      (∀ i ∈ topIndices topic n, i < topic.length) ∧
      List.Pairwise (fun i j => topic.getD j 0 < topic.getD i 0 ∨
        (topic.getD i 0 = topic.getD j 0 ∧ j < i)) (topIndices topic n) ∧
      (∀ i ∈ topIndices topic n, ∀ j, j < topic.length →
        j ∉ topIndices topic n → topic.getD j 0 ≤ topic.getD i 0)) ∧
    (∀ row ∈ get_top_terms components featureNames n,
      List.Pairwise (fun p q : String × ℚ => q.2 ≤ p.2) row) := by
  constructor
  · intro topic htopic
    refine ⟨topIndices_length topic n hn, topIndices_mem_lt topic n, ?_,
      topIndices_dominate topic n⟩
    exact (topIndices_pairwise topic n).imp (by
      intro i j h
      rcases h with h | ⟨h, h'⟩
      · exact Or.inl h
      · exact Or.inr ⟨h.symm, h'⟩)
  · intro row hrow
    obtain ⟨topic, -, rfl⟩ := List.mem_map.mp hrow
    rw [List.pairwise_map]
    exact (topIndices_pairwise topic n).imp (by
      intro i j h
      rcases h with h | ⟨h, -⟩
      · exact le_of_lt h
      · exact le_of_eq h)

/-- C8 witness: a concrete three-term row with distinct weights; the top
two terms come back in descending order. -/
theorem get_top_terms_descending_witness :
    (∀ topic ∈ [[(3 : ℚ), 1, 2]],
      (topIndices topic 2).length = min 2 topic.length ∧
      (∀ i ∈ topIndices topic 2, i < topic.length) ∧
      List.Pairwise (fun i j => topic.getD j 0 < topic.getD i 0 ∨
        (topic.getD i 0 = topic.getD j 0 ∧ j < i)) (topIndices topic 2) ∧
      (∀ i ∈ topIndices topic 2, ∀ j, j < topic.length →
        j ∉ topIndices topic 2 → topic.getD j 0 ≤ topic.getD i 0)) ∧
    (∀ row ∈ get_top_terms [[(3 : ℚ), 1, 2]] ["a", "b", "c"] 2,
      List.Pairwise (fun p q : String × ℚ => q.2 ≤ p.2) row) :=
  get_top_terms_descending [[(3 : ℚ), 1, 2]] ["a", "b", "c"] 2 (by decide)

theorem memberIndices_pairwise (labels : List Nat) (c : Nat) :
    List.Pairwise (· < ·) (memberIndices labels c) :=
  (List.pairwise_lt_range labels.length).filter _

theorem memberIndices_ne_nil {labels : List Nat} {c : Nat}
    (hc : c ∈ labels) : memberIndices labels c ≠ [] := by
  obtain ⟨i, hi, hval⟩ := List.mem_iff_getElem.mp hc
  apply List.ne_nil_of_mem (a := i)
  rw [memberIndices, List.mem_filter]
  refine ⟨List.mem_range.mpr hi, ?_⟩
  rw [beq_iff_eq, List.getD_eq_getElem _ _ hi, hval]

theorem pairwise_lt_getD_le (l : List Nat)
    (h : List.Pairwise (· < ·) l) (i j : Nat) (hij : i ≤ j)
    (hj : j < l.length) : l.getD i 0 ≤ l.getD j 0 := by
  rcases Nat.lt_or_ge i j with hlt | hge
  · rw [List.getD_eq_getElem _ _ (by omega), List.getD_eq_getElem _ _ hj]
    exact le_of_lt (List.pairwise_iff_getElem.mp h i j (by omega) hj hlt)
  · have : i = j := by omega
    rw [this]

/-- C4: the representative of each non-empty cluster is a member whose
cosine similarity to the cluster centroid is maximal among the members,
and among equally-similar members the one with the lowest document id is
chosen (`np.argmax` takes the first maximum and the members are
enumerated in ascending id order). -/
theorem representative_nearest_centroid_lowest_id (embeddings : List Vec)
    (labels : List Nat) (c : Nat) (hc : c ∈ labels) :
    representativeId embeddings labels c ∈ memberIndices labels c ∧
    (∀ j, j < (memberIndices labels c).length →
      (clusterSimilarities embeddings labels c).getD j 0
        ≤ (clusterSimilarities embeddings labels c).getD
            (idxOfMax (clusterSimilarities embeddings labels c)) 0) ∧
    (∀ j, j < (memberIndices labels c).length →
      (clusterSimilarities embeddings labels c).getD j 0
          = (clusterSimilarities embeddings labels c).getD
              (idxOfMax (clusterSimilarities embeddings labels c)) 0 →
      representativeId embeddings labels c
        ≤ (memberIndices labels c).getD j 0) := by
  have hne : memberIndices labels c ≠ [] := memberIndices_ne_nil hc
  have hsimlen : (clusterSimilarities embeddings labels c).length
      = (memberIndices labels c).length := by
    rw [clusterSimilarities, List.length_map]
  have hsimne : clusterSimilarities embeddings labels c ≠ [] := by
    intro hcon
    apply hne
    apply List.eq_nil_of_length_eq_zero
    rw [← hsimlen, hcon]
    rfl
  have hidx : idxOfMax (clusterSimilarities embeddings labels c)
      < (memberIndices labels c).length := by
    rw [← hsimlen]
    exact idxOfMax_lt_length _ hsimne
  refine ⟨?_, ?_, ?_⟩
  · rw [representativeId, List.getD_eq_getElem _ _ hidx]
    exact List.getElem_mem hidx
  · intro j hj
    exact getD_le_idxOfMax _ j 0 (by omega)
  · intro j hj heq
    have hjidx : ¬ j < idxOfMax (clusterSimilarities embeddings labels c) := by
      intro hcon
      exact absurd heq (ne_of_lt (getD_lt_of_lt_idxOfMax _ j 0 hcon))
    rw [representativeId]
    exact pairwise_lt_getD_le _ (memberIndices_pairwise labels c) _ j
      (by omega) hj

/-- C4 witness: three documents, cluster 0 = documents {0, 1}; the
representative is a member of the cluster with maximal
centroid-similarity and the lowest id among ties. -/
theorem representative_nearest_centroid_lowest_id_witness :
    representativeId [[1, 0], [0, 1], [1, 1]] [0, 0, 1] 0
      ∈ memberIndices [0, 0, 1] 0 ∧
    (∀ j, j < (memberIndices [0, 0, 1] 0).length →
      (clusterSimilarities [[1, 0], [0, 1], [1, 1]] [0, 0, 1] 0).getD j 0
        ≤ (clusterSimilarities [[1, 0], [0, 1], [1, 1]] [0, 0, 1] 0).getD
            (idxOfMax (clusterSimilarities [[1, 0], [0, 1], [1, 1]]
              [0, 0, 1] 0)) 0) ∧
    (∀ j, j < (memberIndices [0, 0, 1] 0).length →
      (clusterSimilarities [[1, 0], [0, 1], [1, 1]] [0, 0, 1] 0).getD j 0
          = (clusterSimilarities [[1, 0], [0, 1], [1, 1]] [0, 0, 1] 0).getD
              (idxOfMax (clusterSimilarities [[1, 0], [0, 1], [1, 1]]
                [0, 0, 1] 0)) 0 →
      representativeId [[1, 0], [0, 1], [1, 1]] [0, 0, 1] 0
        ≤ (memberIndices [0, 0, 1] 0).getD j 0) :=
  representative_nearest_centroid_lowest_id [[1, 0], [0, 1], [1, 1]]
    [0, 0, 1] 0 (by decide)

theorem searchPhase_no_late_steps (cfg : TopicConfig)
    (coh : Nat → Option ℚ) (n : Nat) :
    FitStep.vectorize ∉ (searchPhase cfg coh n).1 ∧
    FitStep.fitModel ∉ (searchPhase cfg coh n).1 := by
  unfold searchPhase
  by_cases h : cfg.autoFindTopics
  · rw [if_pos h]
    cases find_optimal_topics coh cfg.largeScale (sampledCount cfg n) 15 <;>
      simp
  · rw [if_neg h]
    simp

theorem fit_eq_of_search_error (cfg : TopicConfig) (coh : Nat → Option ℚ)
    (n : Nat) (s : List FitStep) (e : String)
    (hs : searchPhase cfg coh n = (s, Except.error e)) :
    fit cfg coh n
      = ((if cfg.largeScale.enabled then [FitStep.sampleLargeScale]
          else []) ++ s, Except.error e) := by
  rw [fit, hs]

theorem fit_eq_of_search_ok (cfg : TopicConfig) (coh : Nat → Option ℚ)
    (n : Nat) (s : List FitStep) (cfg' : TopicConfig)
    (hs : searchPhase cfg coh n = (s, Except.ok cfg')) :
    fit cfg coh n
      = if pyLower cfg.algorithm = "lda" ∨ pyLower cfg.algorithm = "nmf" then
          ((if cfg.largeScale.enabled then [FitStep.sampleLargeScale]
            else []) ++ s ++ [FitStep.vectorize, FitStep.fitModel],
            Except.ok cfg')
        else
          ((if cfg.largeScale.enabled then [FitStep.sampleLargeScale]
            else []) ++ s ++ [FitStep.vectorize],
            Except.error ("unsupported algorithm: "
              ++ pyLower cfg.algorithm)) := by
  rw [fit, hs]

theorem cluster_documents_eq_of_none (ccfg : ClusterConfig)
    (kLabels : Nat → List Nat) (sil : Nat → ℚ)
    (finalLabels : Nat → List Nat) (n : Nat)
    (h : find_optimal_k kLabels sil n (maxKFor ccfg.capHigh n) = none) :
    cluster_documents ccfg kLabels sil finalLabels n
      = ([ClusterStep.embedStep, ClusterStep.searchK],
          Except.error "attempt to get argmax of an empty sequence") := by
  rw [cluster_documents, h]

theorem cluster_documents_eq_of_some (ccfg : ClusterConfig)
    (kLabels : Nat → List Nat) (sil : Nat → ℚ)
    (finalLabels : Nat → List Nat) (n k : Nat)
    (h : find_optimal_k kLabels sil n (maxKFor ccfg.capHigh n) = some k) :
    cluster_documents ccfg kLabels sil finalLabels n
      = if ccfg.algorithm = "kmeans" then
          ([ClusterStep.embedStep, ClusterStep.searchK,
            ClusterStep.fitFinal], Except.ok (k, finalLabels k))
        else
          ([ClusterStep.embedStep, ClusterStep.searchK],
            Except.error ("unsupported clustering algorithm: "
              ++ ccfg.algorithm)) := by
  rw [cluster_documents, h]

theorem fit_ok_search_ok (cfg : TopicConfig) (coh : Nat → Option ℚ)
    (n : Nat) (steps : List FitStep) (cfg' : TopicConfig)
    (h : fit cfg coh n = (steps, Except.ok cfg')) :
    ∃ s, searchPhase cfg coh n = (s, Except.ok cfg') := by
  rcases hs : searchPhase cfg coh n with ⟨s, res⟩
  cases res with
  | error e =>
    rw [fit_eq_of_search_error cfg coh n s e hs] at h
    exact absurd (congrArg Prod.snd h) (by simp)
  | ok cfg'' =>
    rw [fit_eq_of_search_ok cfg coh n s cfg'' hs] at h
    by_cases halg : pyLower cfg.algorithm = "lda"
        ∨ pyLower cfg.algorithm = "nmf"
    · rw [if_pos halg] at h
      have hcc : cfg'' = cfg' := by
        have := congrArg Prod.snd h
        simpa using this
      subst hcc
      exact ⟨s, rfl⟩
    · rw [if_neg halg] at h
      exact absurd (congrArg Prod.snd h) (by simp)

theorem searchPhase_ok_cases (cfg : TopicConfig) (coh : Nat → Option ℚ)
    (n : Nat) (s : List FitStep) (cfg' : TopicConfig)
    (h : searchPhase cfg coh n = (s, Except.ok cfg')) :
    (cfg.autoFindTopics = true ∧
      ∃ k, find_optimal_topics coh cfg.largeScale (sampledCount cfg n) 15
          = some k ∧ cfg' = { cfg with nTopics := k }) ∨
    (cfg.autoFindTopics = false ∧ cfg' = cfg) := by
  unfold searchPhase at h
  by_cases haf : cfg.autoFindTopics
  · rw [if_pos haf] at h
    left
    refine ⟨haf, ?_⟩
    cases hf : find_optimal_topics coh cfg.largeScale (sampledCount cfg n) 15 with
    | none =>
      rw [hf] at h
      exact absurd (congrArg Prod.snd h) (by simp)
    | some k =>
      rw [hf] at h
      have := congrArg Prod.snd h
      simp only at this
      exact ⟨k, rfl, (Except.ok.injEq _ _ ▸ this).symm ▸ rfl⟩
  · rw [if_neg haf] at h
    right
    have := congrArg Prod.snd h
    simp only at this
    exact ⟨Bool.of_not_eq_true haf, by
      injection this with h2
      exact h2.symm⟩

/-- C2 counterexample: with algorithm name `"qda"` the topic fit raises
only AFTER the vectorizer has been fitted (the trace contains the
`vectorize` step before the error), and with clustering algorithm
`"dbscan"` the clustering raises only after the embeddings were created
and the whole K sweep ran; the claim's "before any computation begins,
in particular before any vectorization" is violated. -/
theorem algorithm_error_after_vectorization :
    fit ⟨3, "qda", false, 1, 1, 10, ⟨false, 10, 1000⟩⟩ (fun _ => some 1) 10
      = ([FitStep.vectorize], Except.error "unsupported algorithm: qda") ∧
    cluster_documents ⟨"dbscan", 15⟩ (fun _ => [0, 1]) (fun _ => 1)
        (fun _ => [0]) 12
      = ([ClusterStep.embedStep, ClusterStep.searchK],
          Except.error "unsupported clustering algorithm: dbscan") := by
  constructor <;> rfl

/-- C2 (amended): an unsupported algorithm name makes `fit` (resp.
`cluster_documents`) raise the configuration error and the final model
fit is never performed — but the error is raised only after
vectorization and the topic search (resp. after embedding and the K
sweep), not before all computation. -/
theorem unsupported_algorithm_no_final_fit (cfg : TopicConfig)
    (coh : Nat → Option ℚ) (n : Nat) (ccfg : ClusterConfig)
    (kLabels : Nat → List Nat) (sil : Nat → ℚ)
    (finalLabels : Nat → List Nat) (m : Nat)
    (halg1 : pyLower cfg.algorithm ≠ "lda")
    (halg2 : pyLower cfg.algorithm ≠ "nmf")
    (hcalg : ccfg.algorithm ≠ "kmeans") :
    (∃ e, (fit cfg coh n).2 = Except.error e) ∧
    FitStep.fitModel ∉ (fit cfg coh n).1 ∧
    (∃ e, (cluster_documents ccfg kLabels sil finalLabels m).2
        = Except.error e) ∧
    ClusterStep.fitFinal
      ∉ (cluster_documents ccfg kLabels sil finalLabels m).1 := by
  have halg : ¬ (pyLower cfg.algorithm = "lda"
      ∨ pyLower cfg.algorithm = "nmf") := by
    push_neg
    exact ⟨halg1, halg2⟩
  have hfit : (∃ e, (fit cfg coh n).2 = Except.error e) ∧
      FitStep.fitModel ∉ (fit cfg coh n).1 := by
    rcases hs : searchPhase cfg coh n with ⟨s, res⟩
    have hnos := (searchPhase_no_late_steps cfg coh n).2
    rw [hs] at hnos
    cases res with
    | error e =>
      rw [fit_eq_of_search_error cfg coh n s e hs]
      refine ⟨⟨e, rfl⟩, ?_⟩
      intro hmem
      rcases List.mem_append.mp hmem with h | h
      · by_cases hen : cfg.largeScale.enabled <;> simp [hen] at h
      · exact hnos h
    | ok cfg'' =>
      rw [fit_eq_of_search_ok cfg coh n s cfg'' hs, if_neg halg]
      refine ⟨⟨_, rfl⟩, ?_⟩
      intro hmem
      rcases List.mem_append.mp hmem with h | h
      · rcases List.mem_append.mp h with h' | h'
        · by_cases hen : cfg.largeScale.enabled <;> simp [hen] at h'
        · exact hnos h'
      · simp at h
  have hclu : (∃ e, (cluster_documents ccfg kLabels sil finalLabels m).2
      = Except.error e) ∧
      ClusterStep.fitFinal
        ∉ (cluster_documents ccfg kLabels sil finalLabels m).1 := by
    cases hk : find_optimal_k kLabels sil m (maxKFor ccfg.capHigh m) with
    | none =>
      rw [cluster_documents_eq_of_none ccfg kLabels sil finalLabels m hk]
      exact ⟨⟨_, rfl⟩, by simp⟩
    | some k =>
      rw [cluster_documents_eq_of_some ccfg kLabels sil finalLabels m k hk,
        if_neg hcalg]
      exact ⟨⟨_, rfl⟩, by simp⟩
  exact ⟨hfit.1, hfit.2, hclu.1, hclu.2⟩

/-- C2 witness: the amended claim at the concrete configurations of the
counterexample. -/
theorem unsupported_algorithm_no_final_fit_witness :
    (∃ e, (fit ⟨3, "qda", false, 1, 1, 10, ⟨false, 10, 1000⟩⟩
        (fun _ => some 1) 10).2 = Except.error e) ∧
    FitStep.fitModel ∉ (fit ⟨3, "qda", false, 1, 1, 10, ⟨false, 10, 1000⟩⟩
        (fun _ => some 1) 10).1 ∧
    (∃ e, (cluster_documents ⟨"dbscan", 15⟩ (fun _ => [0, 1]) (fun _ => 1)
        (fun _ => [0]) 12).2 = Except.error e) ∧
    ClusterStep.fitFinal ∉ (cluster_documents ⟨"dbscan", 15⟩
        (fun _ => [0, 1]) (fun _ => 1) (fun _ => [0]) 12).1 :=
  unsupported_algorithm_no_final_fit ⟨3, "qda", false, 1, 1, 10,
      ⟨false, 10, 1000⟩⟩ (fun _ => some 1) 10 ⟨"dbscan", 15⟩
    (fun _ => [0, 1]) (fun _ => 1) (fun _ => [0]) 12
    (by decide) (by decide) (by decide)

/-- C10 counterexample: `get_top_terms` does not read the topic count
from the configuration at all — it enumerates the rows of the fitted
`model.components_`.  With a two-row component matrix it yields 2
topics, while the summary built from a configuration whose `n_topics`
field says 5 yields 5 rows. -/
theorem get_top_terms_ignores_config_field :
    (get_top_terms [[1, 0], [0, 1]] ["a", "b"] 1).length = 2 ∧
    (create_topic_summary ⟨5, "lda", true, 1, 1, 10, ⟨false, 10, 1000⟩⟩
        []).length = 5 ∧ (2 : Nat) ≠ 5 := by
  refine ⟨?_, ?_, by decide⟩ <;> decide

/-- C10 (amended): when `auto_find_topics` is enabled and `fit`
succeeds, the selected K is written into the caller-supplied
configuration's `n_topics` field and every other configuration field is
unchanged; `create_topic_summary` (and `generate_topic_names`, which
iterates the same `range(n_topics)`) enumerates exactly the topic ids
`0..n_topics-1` read from the mutated field, while `get_top_terms`
iterates the fitted model's component rows instead of reading the
field. -/
theorem fit_mutates_only_n_topics (cfg : TopicConfig)
    (coh : Nat → Option ℚ) (n : Nat) (steps : List FitStep)
    (cfg' : TopicConfig) (haf : cfg.autoFindTopics = true)
    (h : fit cfg coh n = (steps, Except.ok cfg')) :
    (∃ k, find_optimal_topics coh cfg.largeScale (sampledCount cfg n) 15
        = some k ∧ cfg'.nTopics = k) ∧
    cfg'.algorithm = cfg.algorithm ∧
    cfg'.autoFindTopics = cfg.autoFindTopics ∧
    cfg'.minDf = cfg.minDf ∧ cfg'.maxDf = cfg.maxDf ∧
    cfg'.topTermsPerTopic = cfg.topTermsPerTopic ∧
    cfg'.largeScale = cfg.largeScale ∧
    (∀ assignments : List Nat,
      (create_topic_summary cfg' assignments).map SummaryRow.topicId
        = List.range cfg'.nTopics) ∧
    (∀ (components : List (List ℚ)) (featureNames : List String) (m : Nat),
      (get_top_terms components featureNames m).length
        = components.length) := by
  obtain ⟨s, hsearch⟩ := fit_ok_search_ok cfg coh n steps cfg' h
  rcases searchPhase_ok_cases cfg coh n s cfg' hsearch with
    ⟨-, k, hfind, hcfg⟩ | ⟨hfalse, -⟩
  · subst hcfg
    refine ⟨⟨k, hfind, rfl⟩, rfl, rfl, rfl, rfl, rfl, rfl, ?_, ?_⟩
    · intro assignments
      rw [create_topic_summary, List.map_map]
      exact List.map_id _
    · intro components featureNames m
      rw [get_top_terms, List.length_map]
  · rw [haf] at hfalse
    exact absurd hfalse (by simp)

/-- C10 witness: a concrete auto-find fit over N = 10 documents; the
configuration returned by `fit` carries the selected K = 2. -/
theorem fit_mutates_only_n_topics_witness :
    ∃ k, find_optimal_topics (fun _ => some 1)
        (⟨2, "lda", true, 1, 1, 10,
          ⟨false, 10, 1000⟩⟩ : TopicConfig).largeScale
        (sampledCount ⟨2, "lda", true, 1, 1, 10, ⟨false, 10, 1000⟩⟩ 10) 15
          = some k ∧
      (⟨2, "lda", true, 1, 1, 10,
        ⟨false, 10, 1000⟩⟩ : TopicConfig).nTopics = k :=
  (fit_mutates_only_n_topics
    ⟨2, "lda", true, 1, 1, 10, ⟨false, 10, 1000⟩⟩ (fun _ => some 1) 10
    [FitStep.searchTopics, FitStep.vectorize, FitStep.fitModel]
    ⟨2, "lda", true, 1, 1, 10, ⟨false, 10, 1000⟩⟩ rfl (by rfl)).1

/-- C9: the pipeline's observable result depends on the stochastic
collaborators only through their behaviour at the fixed seed 42 (and on
the deterministic embedding provider): two runs on identical input whose
collaborators agree at seed 42 produce identical selected topic and
cluster counts, topic assignments and cluster labels. -/
theorem pipeline_deterministic_given_seed (o₁ o₂ : Oracles)
    (cfg : TopicConfig) (ccfg : ClusterConfig) (texts : List String)
    (hcoh : o₁.coh 42 = o₂.coh 42)
    (hdist : o₁.topicDist 42 = o₂.topicDist 42)
    (hk : o₁.kLabels 42 = o₂.kLabels 42) (hsil : o₁.sil = o₂.sil)
    (hfin : o₁.finalLabels 42 = o₂.finalLabels 42)
    (hemb : o₁.embed = o₂.embed) :
    runPipeline o₁ cfg ccfg texts = runPipeline o₂ cfg ccfg texts := by
  rw [runPipeline, runPipeline, hcoh, hdist, hk, hsil, hfin, hemb]

/-- C9 witness: two syntactically distinct oracle records agreeing at
seed 42 give the same run result on a concrete corpus. -/
theorem pipeline_deterministic_given_seed_witness :
    runPipeline ⟨fun _ _ => some 1, fun _ _ => [[1]], fun _ _ => [0, 1],
        fun _ => 1, fun _ _ => [0], fun _ => [[1], [1]]⟩
      ⟨2, "lda", true, 1, 1, 10, ⟨false, 10, 1000⟩⟩ ⟨"kmeans", 15⟩
      ["a", "b", "c", "d", "e", "f", "g", "h", "i", "j"]
    = runPipeline ⟨fun _ _ => some 1, fun _ _ => [[1]], fun _ _ => [0, 1],
        fun _ => 1, fun _ _ => [0], fun _ => [[1], [1]]⟩
      ⟨2, "lda", true, 1, 1, 10, ⟨false, 10, 1000⟩⟩ ⟨"kmeans", 15⟩
      ["a", "b", "c", "d", "e", "f", "g", "h", "i", "j"] :=
  pipeline_deterministic_given_seed _ _ _ _ _ rfl rfl rfl rfl rfl rfl

/-- C7 witness: with every trial partition degenerate (all labels equal),
two silhouette metrics disagreeing everywhere still yield the same
selection, and the degenerate score is 0. -/
theorem degenerate_partition_skips_silhouette_witness :
    kTrialScore (fun _ => [0, 0, 0]) (fun _ => 7) 2 = 0 ∧
    find_optimal_k (fun _ => [0, 0, 0]) (fun _ => 5) 10 5
        = find_optimal_k (fun _ => [0, 0, 0]) (fun _ => 7) 10 5 :=
  ⟨(degenerate_partition_skips_silhouette (fun _ => [0, 0, 0]) (fun _ => 7)
      10 5).1 2 (by decide),
   ((degenerate_partition_skips_silhouette (fun _ => [0, 0, 0]) (fun _ => 7)
      10 5).2 (fun _ => 5) (fun k h => absurd h (by decide))).2⟩

end BulletinBoard
